import Mathlib

/-!
Shallow embedding of the lotwire in-memory log server (`src/lib.rs`).

The embedding models:
* the `log::Level` severity enumeration and its ordering (the `log` crate
  orders levels by discriminant, `Error = 1 < Warn = 2 < Info = 3 <
  Debug = 4 < Trace = 5`, so `lvl <= min` means "at least as severe");
* `Settings` with its two constructors (`new`, which parses a config file,
  and `with_values`); the file/environment reading itself is external, so
  `Settings.new` is modelled on the already-extracted raw config values;
* the mutex-guarded `AllocRingBuffer<LogItem>` as a `List LogItem`
  (oldest first) together with the evict-oldest `push`;
* the `log::Log` implementation (`enabled`, `log`, `flush`) for
  `LogServer`, including the `contains("rocket") || contains("reqwest")`
  self-exclusion filter;
* the `/logs` route handler and its JSON body, and the CORS fairing's
  `on_response`;
* `LogServer` itself with its `Option`-typed fields, where a Rust
  `unwrap()` panic is modelled as `none`.
-/

/-- Severity levels of the `log` crate. -/
inductive Level : Type
  | error
  | warn
  | info
  | debug
  | trace
deriving DecidableEq, Repr

/-- Discriminant of a `log::Level` (the `log` crate assigns `Error = 1`
through `Trace = 5`; its `Ord` instance compares these discriminants). -/
def Level.toNat : Level → Nat
  | .error => 1
  | .warn => 2
  | .info => 3
  | .debug => 4
  | .trace => 5

/-- Severity rank used by the specification's wording: larger means more
severe (`Error > Warn > Info > Debug > Trace`). -/
def Level.sevRank : Level → Nat
  | .error => 4
  | .warn => 3
  | .info => 2
  | .debug => 1
  | .trace => 0

/-- Rendering of a level by the `log` crate's `Display` (used by
`record.level().to_string()` in `Log::log`). -/
def Level.toLabel : Level → String
  | .error => "ERROR"
  | .warn => "WARN"
  | .info => "INFO"
  | .debug => "DEBUG"
  | .trace => "TRACE"

/-- The `Settings` struct of `src/lib.rs`: `address: String`,
`port: u32`, `level: Level`, `num_records: u32`. The `u32` fields are
modelled as `Nat` holding the `u32` value. -/
structure Settings : Type where
  address : String
  port : Nat
  level : Level
  num_records : Nat
deriving Repr

/-- The severity-string match in `Settings::new`: the five lowercase
labels map to their level and anything else falls back to `Error`. -/
def parseLevel (s : String) : Level :=
  if s = "error" then .error
  else if s = "warn" then .warn
  else if s = "info" then .info
  else if s = "debug" then .debug
  else if s = "trace" then .trace
  else .error

/-- The `Settings::new` constructor, modelled on the raw values the
`config` crate extracts from `lotwire.toml` (file and environment reading
are external): `get_int` yields an `i64`, and the Rust `as u32` cast
truncates it modulo `2^32`. -/
def Settings.new (address : String) (portInt : Int) (numMessagesInt : Int)
    (levelStr : String) : Settings :=
  { address := address
    port := (portInt.emod (2 ^ 32)).toNat
    level := parseLevel levelStr
    num_records := (numMessagesInt.emod (2 ^ 32)).toNat }

/-- The `Settings::with_values` constructor: stores the given values
verbatim (`port` and `num_records` are `u32` arguments in Rust). -/
def Settings.with_values (address : String) (port : Nat) (level : Level)
    (num_records : Nat) : Settings :=
  { address := address, port := port, level := level, num_records := num_records }

/-- The `settings.port as u16` cast in `LogServer::start`: the port the
HTTP server actually binds to. -/
def bindPort (s : Settings) : Nat :=
  s.port % 65536

/-- The `LogItem` struct: three string fields. -/
structure LogItem : Type where
  level : String
  module : String
  message : String
deriving DecidableEq, Repr

/-- Substring test on character lists, the semantics of Rust's
`str::contains` with a string pattern. -/
def listContainsSub (pat : List Char) : List Char → Bool
  | [] => pat.isEmpty
  | c :: t => pat.isPrefixOf (c :: t) || listContainsSub pat t

/-- Rust `haystack.contains(pattern)` on strings. -/
def strContains (hay pat : String) : Bool :=
  listContainsSub pat.data hay.data

/-- The self-exclusion filter in `Log::log`:
`module.contains("rocket") || module.contains("reqwest")`. -/
def selfFiltered (modName : String) : Bool :=
  strContains modName "rocket" || strContains modName "reqwest"

/-- `Log::enabled` for `LogServer`:
`metadata.level() <= settings.level` under the `log` crate's
discriminant order. -/
def enabledB (s : Settings) (lvl : Level) : Bool :=
  lvl.toNat ≤ s.level.toNat

/-- `AllocRingBuffer::push`: append when below capacity, otherwise evict
the single oldest element first. The buffer list is oldest-first. -/
def ringPush (cap : Nat) (buf : List LogItem) (x : LogItem) : List LogItem :=
  if buf.length < cap then buf ++ [x] else buf.drop 1 ++ [x]

/-- The `LogItem` built inside `Log::log` from a record. -/
def mkItem (lvl : Level) (modName msg : String) : LogItem :=
  { level := lvl.toLabel, module := modName, message := msg }

/-- `Log::log` acting on the buffer contents: no-op unless `enabled`,
no-op when the module matches the self-exclusion filter, otherwise push
the freshly built item. -/
def logRecord (s : Settings) (buf : List LogItem) (lvl : Level)
    (modName msg : String) : List LogItem :=
  if enabledB s lvl then
    if selfFiltered modName then buf
    else ringPush s.num_records buf (mkItem lvl modName msg)
  else buf

/-- Whether a `log` call is accepted into the buffer: a function of the
level (via `enabled`) and the module (via the self-exclusion filter)
only. -/
def acceptsB (s : Settings) (lvl : Level) (modName : String) : Bool :=
  enabledB s lvl && !selfFiltered modName

/-- A sequence of `Log::log` calls folded over a starting buffer. -/
def runLogFrom (s : Settings) (buf : List LogItem)
    (calls : List (Level × String × String)) : List LogItem :=
  calls.foldl (fun b c => logRecord s b c.1 c.2.1 c.2.2) buf

/-- A sequence of `Log::log` calls on the initially empty buffer. -/
def runLog (s : Settings) (calls : List (Level × String × String)) : List LogItem :=
  runLogFrom s [] calls

/-- The item a call contributes when accepted. -/
def callItem (c : Level × String × String) : LogItem :=
  mkItem c.1 c.2.1 c.2.2

/-- A minimal JSON value type for the response bodies. -/
inductive Json : Type
  | null
  | str (s : String)
  | arr (xs : List Json)
  | obj (fields : List (String × Json))
deriving Repr

/-- Whether a JSON value is `null`. -/
def Json.isNull : Json → Bool
  | .null => true
  | _ => false

/-- Serde serialization of one `LogItem`: an object with the three
string fields. -/
def itemJson (it : LogItem) : Json :=
  .obj [("level", .str it.level), ("module", .str it.module),
        ("message", .str it.message)]

/-- Serde serialization of `Json<Vec<LogItem>>`: a JSON array, one
object per item, in list order. -/
def logsJson (items : List LogItem) : Json :=
  .arr (items.map itemJson)

/-- The `/logs` route handler body acting on the buffer contents: the
`for item in buffer.iter()` loop pushes each item (oldest first) onto a
fresh vector, and the handler returns `(Status::Ok, Json(log_items))`.
`Status::Ok` is HTTP 200. -/
def logsHandler (buf : List LogItem) : Nat × List LogItem :=
  (200, buf.foldl (fun acc it => acc ++ [it]) [])

/-- The `/logs` handler with the buffer threaded as explicit state: the
handler only reads the buffer (under the lock), so the out-state is the
buffer it was given. -/
def logsStateful (buf : List LogItem) : (Nat × List LogItem) × List LogItem :=
  (logsHandler buf, buf)

/-- An HTTP response as the CORS fairing sees it: a status code and a
header map (name/value pairs). -/
structure Response : Type where
  status : Nat
  headers : List (String × String)
deriving Repr

/-- Rocket's `Response::set_header`: replaces any existing header of the
same name with the new value. -/
def setHeader (r : Response) (n v : String) : Response :=
  { r with headers := (n, v) :: r.headers.filter (fun p => p.1 ≠ n) }

/-- Rocket's `Response::set_status`. -/
def setStatus (r : Response) (c : Nat) : Response :=
  { r with status := c }

/-- Header lookup by name. -/
def getHeader (r : Response) (n : String) : Option String :=
  (r.headers.find? (fun p => p.1 = n)).map (fun p => p.2)

/-- The CORS fairing's `on_response`: sets the four CORS headers and
then forces `Status::Ok` (HTTP 200), for every response on every
route. -/
def corsOnResponse (r : Response) : Response :=
  setStatus
    (setHeader
      (setHeader
        (setHeader
          (setHeader r "Access-Control-Allow-Origin" "*")
          "Access-Control-Allow-Methods" "POST, GET, PATCH, OPTIONS, DELETE")
        "Access-Control-Allow-Headers" "*")
      "Access-Control-Allow-Credentials" "true")
    200

/-- The `LogServer` struct: both fields are `Option`s, `None` in the
derived `Default`. The `Arc<Mutex<AllocRingBuffer<LogItem>>>` is
modelled by the buffer contents themselves. -/
structure LogServer : Type where
  settings : Option Settings
  buffer : Option (List LogItem)
deriving Repr

/-- `LogServer::default()`: both fields `None`. -/
def LogServer.default : LogServer :=
  { settings := none, buffer := none }

/-- `LogServer::init` (reached from both `new` and `with_settings`):
stores the settings and a fresh empty ring buffer of capacity
`num_records`. -/
def LogServer.init (s : Settings) : LogServer :=
  { settings := some s, buffer := some [] }

/-- `LogServer::new(dir, file)`: parse settings, then `init`. -/
def LogServer.fromConfig (address : String) (portInt numMessagesInt : Int)
    (levelStr : String) : LogServer :=
  LogServer.init (Settings.new address portInt numMessagesInt levelStr)

/-- `LogServer::with_settings`. -/
def LogServer.with_settings (s : Settings) : LogServer :=
  LogServer.init s

/-- `Log::enabled` on a `LogServer`: `none` models the panic of
`self.settings.as_ref().unwrap()` when the field is `None`. -/
def serverEnabled (srv : LogServer) (lvl : Level) : Option Bool :=
  srv.settings.map (fun st => enabledB st lvl)

/-- `Log::log` on a `LogServer`, with `none` modelling an `unwrap`
panic: `enabled` unwraps `settings`; the buffer is unwrapped only on the
accepting path, after the self-exclusion check. -/
def serverLog (srv : LogServer) (lvl : Level) (modName msg : String) :
    Option LogServer :=
  match srv.settings with
  | none => none
  | some st =>
    if enabledB st lvl then
      if selfFiltered modName then some srv
      else
        match srv.buffer with
        | none => none
        | some buf =>
          some { srv with
                 buffer := some (ringPush st.num_records buf (mkItem lvl modName msg)) }
    else some srv

/-- `Log::flush` on a `LogServer`: a no-op touching neither field. -/
def serverFlush (srv : LogServer) : LogServer :=
  srv

/-- The `/logs` handler on a `LogServer`: unwraps the buffer field
(`none` on panic), then runs the copy loop. -/
def serverLogs (srv : LogServer) : Option (Nat × List LogItem) :=
  srv.buffer.map logsHandler

/-! ## Helper lemmas -/

/-- Unfolding one call of a `runLogFrom` sequence. -/
theorem runLogFrom_cons (s : Settings) (buf : List LogItem)
    (c : Level × String × String) (rest : List (Level × String × String)) :
    runLogFrom s buf (c :: rest) =
      runLogFrom s (logRecord s buf c.1 c.2.1 c.2.2) rest :=
  rfl

/-- An accepted call pushes its item onto the ring buffer. -/
theorem logRecord_accepts (s : Settings) (buf : List LogItem) (lvl : Level)
    (modName msg : String) (h : acceptsB s lvl modName = true) :
    logRecord s buf lvl modName msg =
      ringPush s.num_records buf (mkItem lvl modName msg) := by
  simp only [acceptsB, Bool.and_eq_true, Bool.not_eq_true'] at h
  simp [logRecord, h.1, h.2]

/-- A fully accepted call sequence acts as a fold of ring pushes of the
corresponding items. -/
theorem runLogFrom_accepts (s : Settings) :
    ∀ (calls : List (Level × String × String)) (buf : List LogItem),
      (∀ c ∈ calls, acceptsB s c.1 c.2.1 = true) →
      runLogFrom s buf calls =
        (calls.map callItem).foldl (ringPush s.num_records) buf := by
  intro calls
  induction calls with
  | nil => intro buf _; rfl
  | cons c rest ih =>
    intro buf h
    rw [runLogFrom_cons, logRecord_accepts s buf c.1 c.2.1 c.2.2 (h c (by simp))]
    rw [ih _ (fun d hd => h d (by simp [hd]))]
    rfl

/-- Closed form of a fold of ring pushes: starting below capacity, the
result is the concatenated stream with everything but the last
`cap`-or-fewer elements dropped. -/
theorem ringPush_run (cap : Nat) (hcap : 0 < cap) :
    ∀ (items buf : List LogItem), buf.length ≤ cap →
      items.foldl (ringPush cap) buf =
        (buf ++ items).drop (buf.length + items.length - cap) := by
  intro items
  induction items with
  | nil =>
    intro buf hbuf
    simp [Nat.sub_eq_zero_of_le hbuf]
  | cons x rest ih =>
    intro buf hbuf
    rw [List.foldl_cons]
    by_cases h : buf.length < cap
    · have hr : ringPush cap buf x = buf ++ [x] := by simp [ringPush, h]
      rw [hr, ih (buf ++ [x]) (by simp; omega)]
      rw [List.append_assoc, List.singleton_append]
      congr 1
      simp
      omega
    · have hlen : buf.length = cap := by omega
      have hr : ringPush cap buf x = buf.drop 1 ++ [x] := by simp [ringPush, h]
      rw [hr, ih (buf.drop 1 ++ [x]) (by simp [List.length_drop]; omega)]
      have hidx : (buf.drop 1 ++ [x]).length + rest.length - cap = rest.length := by
        simp [List.length_drop]
        omega
      have hidx2 : buf.length + (x :: rest).length - cap = 1 + rest.length := by
        simp
        omega
      have hsplit : (buf ++ x :: rest).drop (1 + rest.length) =
          (buf.drop 1 ++ x :: rest).drop rest.length := by
        rw [← List.drop_drop,
          List.drop_append_of_le_length (show 1 ≤ buf.length by omega)]
      rw [hidx, hidx2, List.append_assoc, List.singleton_append, hsplit]

/-- The fold of ring pushes never exceeds the capacity. -/
theorem ringPush_run_length (cap : Nat) (hcap : 0 < cap)
    (items buf : List LogItem) (hbuf : buf.length ≤ cap) :
    (items.foldl (ringPush cap) buf).length ≤ cap := by
  rw [ringPush_run cap hcap items buf hbuf]
  simp [List.length_drop]
  omega

/-! ## Claim theorems -/

/-- C1: for a sink of capacity `C = s.num_records`, pushing any sequence
of `K > C` accepted calls through `record` leaves the buffer containing
exactly the last `C` accepted items in acceptance order (oldest evicted
first, no reordering), the final length is exactly `C`, and
`len(buffer) ≤ C` holds after every push along the way. -/
theorem ringBuffer_keeps_last_capacity_items (s : Settings)
    (buf : List LogItem) (calls : List (Level × String × String))
    (hcap : 0 < s.num_records) (hbuf : buf.length ≤ s.num_records)
    (hacc : ∀ c ∈ calls, acceptsB s c.1 c.2.1 = true)
    (hK : s.num_records < calls.length) :
    runLogFrom s buf calls =
        (calls.map callItem).drop (calls.length - s.num_records)
      ∧ (runLogFrom s buf calls).length = s.num_records
      ∧ ∀ n, (runLogFrom s buf (calls.take n)).length ≤ s.num_records := by
  have hrun : runLogFrom s buf calls =
      (buf ++ calls.map callItem).drop
        (buf.length + (calls.map callItem).length - s.num_records) := by
    rw [runLogFrom_accepts s calls buf hacc,
      ringPush_run s.num_records hcap (calls.map callItem) buf hbuf]
  refine ⟨?_, ?_, ?_⟩
  · rw [hrun]
    have h1 : buf.length + (calls.map callItem).length - s.num_records =
        buf.length + (calls.length - s.num_records) := by
      simp [List.length_map]
      omega
    rw [h1, List.drop_append]
  · rw [hrun]
    simp [List.length_drop, List.length_map]
    omega
  · intro n
    rw [runLogFrom_accepts s (calls.take n) buf
      (fun c hc => hacc c (List.take_subset n calls hc))]
    exact ringPush_run_length s.num_records hcap _ buf hbuf

/-- Witness for C1 at capacity 2 with three accepted calls: the buffer
ends as the last two items, length 2. -/
theorem ringBuffer_keeps_last_capacity_items_witness :
    runLogFrom (Settings.with_values "127.0.0.1" 8080 Level.trace 2) []
        [(Level.error, "app", "a"), (Level.warn, "app", "b"), (Level.info, "app", "c")]
      = [mkItem Level.warn "app" "b", mkItem Level.info "app" "c"]
    ∧ (runLogFrom (Settings.with_values "127.0.0.1" 8080 Level.trace 2) []
        [(Level.error, "app", "a"), (Level.warn, "app", "b"), (Level.info, "app", "c")]).length = 2 := by
  have h := ringBuffer_keeps_last_capacity_items
    (Settings.with_values "127.0.0.1" 8080 Level.trace 2) []
    [(Level.error, "app", "a"), (Level.warn, "app", "b"), (Level.info, "app", "c")]
    (by decide) (by decide) (by decide) (by decide)
  refine ⟨?_, h.2.1⟩
  rw [h.1]
  decide

/-- C2: `enabled(L)` is true iff `L` is at least as severe as the
configured minimum `M` under `Error > Warn > Info > Debug > Trace`; in
particular `L = M` passes and `L` one step less severe than `M`
fails. -/
theorem enabled_matches_severity_order (s : Settings) (lvl : Level) :
    (enabledB s lvl = true ↔ s.level.sevRank ≤ lvl.sevRank)
    ∧ (lvl = s.level → enabledB s lvl = true)
    ∧ (lvl.sevRank + 1 = s.level.sevRank → enabledB s lvl = false) := by
  rcases s with ⟨a, p, m, c⟩
  cases m <;> cases lvl <;>
    simp [enabledB, Level.toNat, Level.sevRank]

/-- Witness for C2 with minimum Warn: Error passes, Info (one step less
severe) fails. -/
theorem enabled_matches_severity_order_witness :
    enabledB (Settings.with_values "127.0.0.1" 8080 Level.warn 50) Level.error = true
    ∧ enabledB (Settings.with_values "127.0.0.1" 8080 Level.warn 50) Level.info = false := by
  refine ⟨?_, ?_⟩
  · exact (enabled_matches_severity_order
      (Settings.with_values "127.0.0.1" 8080 Level.warn 50) Level.error).1.mpr (by decide)
  · exact (enabled_matches_severity_order
      (Settings.with_values "127.0.0.1" 8080 Level.warn 50) Level.info).2.2 (by decide)

/-- Membership after one `log` call: an item was already present, or it
is the freshly built one — and in the latter case the module passed the
self-exclusion filter. -/
theorem mem_logRecord (s : Settings) (buf : List LogItem) (lvl : Level)
    (modName msg : String) (it : LogItem)
    (h : it ∈ logRecord s buf lvl modName msg) :
    it ∈ buf ∨ (selfFiltered modName = false ∧ it = mkItem lvl modName msg) := by
  by_cases h1 : enabledB s lvl
  · by_cases h2 : selfFiltered modName
    · simp [logRecord, h1, h2] at h
      exact Or.inl h
    · simp [logRecord, h1, h2, ringPush] at h
      by_cases h3 : buf.length < s.num_records
      · simp [h3] at h
        rcases h with h | h
        · exact Or.inl h
        · exact Or.inr ⟨by simp [h2], h⟩
      · simp [h3] at h
        rcases h with h | h
        · exact Or.inl (List.mem_of_mem_tail h)
        · exact Or.inr ⟨by simp [h2], h⟩
  · simp [logRecord, h1] at h
    exact Or.inl h

/-- Every item in a buffer built from `log` calls has a module that the
self-exclusion filter rejects. -/
theorem runLogFrom_no_filtered (s : Settings) :
    ∀ (calls : List (Level × String × String)) (buf : List LogItem),
      (∀ it ∈ buf, selfFiltered it.module = false) →
      ∀ it ∈ runLogFrom s buf calls, selfFiltered it.module = false := by
  intro calls
  induction calls with
  | nil => intro buf hb; simpa [runLogFrom] using hb
  | cons c rest ih =>
    intro buf hb
    rw [runLogFrom_cons]
    apply ih
    intro it hit
    rcases mem_logRecord s buf c.1 c.2.1 c.2.2 it hit with h | ⟨hf, he⟩
    · exact hb it h
    · rw [he]
      simpa [mkItem] using hf

/-- C3: `record(level, module, message)` leaves the buffer unchanged
when the level is not enabled, leaves it unchanged when the module
matches the self-exclusion filter, and otherwise appends exactly the one
item `{level, module, message}` (evicting the oldest element first when
at capacity); moreover no item with a self-excluded module is ever
present in a buffer built by `record` calls. -/
theorem record_filters_and_appends (s : Settings) (buf : List LogItem)
    (lvl : Level) (modName msg : String)
    (calls : List (Level × String × String)) :
    (enabledB s lvl = false → logRecord s buf lvl modName msg = buf)
    ∧ (selfFiltered modName = true → logRecord s buf lvl modName msg = buf)
    ∧ (enabledB s lvl = true → selfFiltered modName = false →
        logRecord s buf lvl modName msg =
          (if buf.length < s.num_records then buf else buf.drop 1)
            ++ [mkItem lvl modName msg])
    ∧ (∀ it ∈ runLog s calls, selfFiltered it.module = false) := by
  refine ⟨?_, ?_, ?_, ?_⟩
  · intro h
    simp [logRecord, h]
  · intro h
    simp [logRecord, h]
  · intro h1 h2
    by_cases h3 : buf.length < s.num_records <;>
      simp [logRecord, ringPush, h1, h2, h3]
  · exact runLogFrom_no_filtered s calls [] (by simp)

/-- Witness for C3: a disabled call and a self-excluded call are no-ops;
an accepted call appends exactly its item. -/
theorem record_filters_and_appends_witness :
    logRecord (Settings.with_values "a" 1 Level.error 50) [] Level.debug "app" "x" = []
    ∧ logRecord (Settings.with_values "a" 1 Level.trace 50) [] Level.error "api::rocket::worker" "x" = []
    ∧ logRecord (Settings.with_values "a" 1 Level.trace 50) [] Level.error "app" "x"
        = [mkItem Level.error "app" "x"] := by
  refine ⟨?_, ?_, ?_⟩
  · exact (record_filters_and_appends (Settings.with_values "a" 1 Level.error 50)
      [] Level.debug "app" "x" []).1 (by decide)
  · exact (record_filters_and_appends (Settings.with_values "a" 1 Level.trace 50)
      [] Level.error "api::rocket::worker" "x" []).2.1 (by decide)
  · have h := (record_filters_and_appends (Settings.with_values "a" 1 Level.trace 50)
      [] Level.error "app" "x" []).2.2.1 (by decide) (by decide)
    simpa using h

/-- Copying a list by folding single-element appends reproduces it. -/
theorem foldl_snoc_copy (l : List LogItem) :
    ∀ acc : List LogItem, l.foldl (fun a x => a ++ [x]) acc = acc ++ l := by
  induction l with
  | nil => intro acc; simp
  | cons x t ih =>
    intro acc
    rw [List.foldl_cons, ih (acc ++ [x]), List.append_assoc, List.singleton_append]

/-- C4: `GET /logs` answers status 200 with the buffer's items in
oldest-first order, serialized as a JSON array of objects with the three
string fields; an empty buffer yields the empty JSON array `[]`, which
is not `null`. -/
theorem logs_route_status_and_body (buf : List LogItem) :
    (logsHandler buf).1 = 200
    ∧ (logsHandler buf).2 = buf
    ∧ logsJson (logsHandler buf).2 = Json.arr (buf.map itemJson)
    ∧ logsJson (logsHandler []).2 = Json.arr []
    ∧ (logsJson (logsHandler []).2).isNull = false := by
  have h2 : (logsHandler buf).2 = buf := by
    simp [logsHandler, foldl_snoc_copy]
  exact ⟨rfl, h2, by rw [h2]; rfl, rfl, rfl⟩

/-- C9: serving `GET /logs` only copies items out: the copy it returns
equals the buffer contents, and the buffer after the handler runs equals
the buffer before. -/
theorem logs_route_preserves_buffer (buf : List LogItem) :
    (logsStateful buf).2 = buf
    ∧ (logsStateful buf).1.2 = buf
    ∧ (logsStateful buf).1 = logsHandler buf := by
  refine ⟨rfl, ?_, rfl⟩
  simp [logsStateful, logsHandler, foldl_snoc_copy]

/-- C5: the CORS fairing sets the four CORS headers on every response
and forces the HTTP status to 200, overwriting whatever status the
handler produced. -/
theorem cors_sets_headers_and_forces_200 (r : Response) :
    (corsOnResponse r).status = 200
    ∧ getHeader (corsOnResponse r) "Access-Control-Allow-Origin" = some "*"
    ∧ getHeader (corsOnResponse r) "Access-Control-Allow-Methods"
        = some "POST, GET, PATCH, OPTIONS, DELETE"
    ∧ getHeader (corsOnResponse r) "Access-Control-Allow-Headers" = some "*"
    ∧ getHeader (corsOnResponse r) "Access-Control-Allow-Credentials" = some "true" := by
  refine ⟨rfl, ?_, ?_, ?_, ?_⟩ <;>
    simp [corsOnResponse, setStatus, setHeader, getHeader, List.find?]

/-- C6: settings parsing maps each of the five lowercase severity labels
to its level, and every other string (including differently cased ones)
to the most severe level `Error`, with no validation error. -/
theorem parse_level_labels_and_fallback (s : String)
    (h1 : s ≠ "error") (h2 : s ≠ "warn") (h3 : s ≠ "info")
    (h4 : s ≠ "debug") (h5 : s ≠ "trace") :
    parseLevel "error" = Level.error
    ∧ parseLevel "warn" = Level.warn
    ∧ parseLevel "info" = Level.info
    ∧ parseLevel "debug" = Level.debug
    ∧ parseLevel "trace" = Level.trace
    ∧ parseLevel s = Level.error
    ∧ (Settings.new "a" 1 1 s).level = Level.error := by
  have hf : parseLevel s = Level.error := by
    simp [parseLevel, h1, h2, h3, h4, h5]
  exact ⟨by decide, by decide, by decide, by decide, by decide, hf,
    by simp [Settings.new, hf]⟩

/-- Witness for C6: the capitalized string "Error" is unrecognized
(matching is case-sensitive) and falls back to `Error`. -/
theorem parse_level_labels_and_fallback_witness :
    parseLevel "Error" = Level.error := by
  exact (parse_level_labels_and_fallback "Error" (by decide) (by decide)
    (by decide) (by decide) (by decide)).2.2.2.2.2.1

/-- C7: `record` is a total function of the settings, buffer and call
arguments (it produces a buffer for every input, with no failure
outcome), and whether the call's item lands in the buffer is decided by
`acceptsB`, a function of the level and module only — the same decision
for every buffer state. -/
theorem record_acceptance_ignores_buffer (s : Settings)
    (buf : List LogItem) (lvl : Level) (modName msg : String) :
    logRecord s buf lvl modName msg =
      (if acceptsB s lvl modName then
        ringPush s.num_records buf (mkItem lvl modName msg)
      else buf) := by
  by_cases h1 : enabledB s lvl <;> by_cases h2 : selfFiltered modName <;>
    simp [logRecord, acceptsB, h1, h2]

/-- C8 counterexample: `Settings::with_values` accepts the u32 port
70000, which exceeds 65535, and the server then binds to
`70000 mod 65536 = 4464`, not to the configured port. -/
theorem port_range_counterexample :
    (Settings.with_values "127.0.0.1" 70000 Level.info 50).port = 70000
    ∧ ¬ (Settings.with_values "127.0.0.1" 70000 Level.info 50).port ≤ 65535
    ∧ bindPort (Settings.with_values "127.0.0.1" 70000 Level.info 50) = 4464
    ∧ bindPort (Settings.with_values "127.0.0.1" 70000 Level.info 50)
        ≠ (Settings.with_values "127.0.0.1" 70000 Level.info 50).port := by
  decide

/-- C8 amended: the `port` field is a full u32 — `with_values` stores
its argument verbatim and `new` truncates the config integer modulo
`2^32` — and the server binds to `port mod 65536`, which equals the
configured port exactly when the port is at most 65535. -/
theorem port_is_u32_and_bind_truncates (a : String) (p : Nat) (lvl : Level)
    (cap : Nat) (pInt nInt : Int) (lStr : String) :
    (Settings.with_values a p lvl cap).port = p
    ∧ bindPort (Settings.with_values a p lvl cap) = p % 65536
    ∧ (p ≤ 65535 → bindPort (Settings.with_values a p lvl cap) = p)
    ∧ (Settings.new a pInt nInt lStr).port = (pInt.emod (2 ^ 32)).toNat
    ∧ bindPort (Settings.new a pInt nInt lStr)
        = (pInt.emod (2 ^ 32)).toNat % 65536 := by
  refine ⟨rfl, rfl, ?_, rfl, rfl⟩
  intro h
  simp [bindPort, Settings.with_values]
  omega

/-- Witness for C8 amended: a port in range binds unchanged. -/
theorem port_is_u32_and_bind_truncates_witness :
    bindPort (Settings.with_values "127.0.0.1" 8080 Level.info 50) = 8080 := by
  exact (port_is_u32_and_bind_truncates "127.0.0.1" 8080 Level.info 50 1 1 "info").2.2.1
    (by decide)

/-- C10: a `LogServer` built through `init` (the common path of `new`
and `with_settings`) has both `Option` fields populated; `enabled`,
`log`, `flush` and the `/logs` handler never hit a `None` unwrap on such
a server and `log` preserves the populated fields; the derived
`default()` instead has both fields `None`. -/
theorem server_fields_populated_invariant (s : Settings) (lvl : Level)
    (modName msg : String) :
    (LogServer.init s).settings.isSome = true
    ∧ (LogServer.init s).buffer.isSome = true
    ∧ LogServer.with_settings s = LogServer.init s
    ∧ (serverEnabled (LogServer.init s) lvl).isSome = true
    ∧ (∀ srv : LogServer, srv.settings.isSome = true → srv.buffer.isSome = true →
        ∃ srv', serverLog srv lvl modName msg = some srv'
          ∧ srv'.settings.isSome = true ∧ srv'.buffer.isSome = true)
    ∧ (∀ srv : LogServer, serverFlush srv = srv)
    ∧ (∀ srv : LogServer, srv.buffer.isSome = true → (serverLogs srv).isSome = true)
    ∧ LogServer.default.settings = none
    ∧ LogServer.default.buffer = none := by
  refine ⟨rfl, rfl, rfl, rfl, ?_, fun _ => rfl, ?_, rfl, rfl⟩
  · rintro ⟨os, ob⟩ hs hb
    cases os with
    | none => simp at hs
    | some st =>
      cases ob with
      | none => simp at hb
      | some buf =>
        by_cases h1 : enabledB st lvl
        · by_cases h2 : selfFiltered modName
          · exact ⟨LogServer.mk (some st) (some buf),
              by simp [serverLog, h1, h2], rfl, rfl⟩
          · exact ⟨LogServer.mk (some st)
                (some (ringPush st.num_records buf (mkItem lvl modName msg))),
              by simp [serverLog, h1, h2], rfl, rfl⟩
        · exact ⟨LogServer.mk (some st) (some buf),
            by simp [serverLog, h1], rfl, rfl⟩
  · rintro ⟨os, ob⟩ hb
    cases ob with
    | none => simp at hb
    | some buf => simp [serverLogs]

/-- Witness for C10: on a server built by `init`, one `log` call
succeeds (no unwrap panic) and keeps both fields populated. -/
theorem server_fields_populated_invariant_witness :
    ∃ srv' : LogServer,
      serverLog (LogServer.init (Settings.with_values "127.0.0.1" 8080 Level.trace 50))
          Level.error "app" "x" = some srv'
        ∧ srv'.settings.isSome = true ∧ srv'.buffer.isSome = true := by
  have h := server_fields_populated_invariant
    (Settings.with_values "127.0.0.1" 8080 Level.trace 50) Level.error "app" "x"
  exact h.2.2.2.2.1
    (LogServer.init (Settings.with_values "127.0.0.1" 8080 Level.trace 50)) rfl rfl
